import Mathlib

/-!
Verification development for the `agentic-researcher` repository
(`src/research_agent.py`).  The Python module is shallowly embedded:
Python floats are modelled as rationals, mutation of `self` is modelled
by threading an explicit `Agent` state, and Python exceptions are
modelled with `Except String` (the string carries the exception message).
Timestamps (`datetime.now().isoformat()`) are modelled by an explicit
`now : String` parameter.
-/

namespace AgenticResearch

/-! ### Python string primitives

All primitives are defined by structural recursion over `List Char`
so that every function of the embedding is computable by the kernel. -/

/-- Split a character list at every character satisfying `p`, keeping
empty pieces (the behaviour of Python `str.split(sep)` for each
separator occurrence). -/
def splitByChar (p : Char → Bool) : List Char → List (List Char)
  | [] => [[]]
  | c :: rest =>
    match splitByChar p rest with
    | [] => if p c then [[], []] else [[c]]
    | cur :: parts => if p c then [] :: cur :: parts else (c :: cur) :: parts

/-- Python newline split: `s.split` at each newline character. -/
def splitLines (s : String) : List String :=
  (splitByChar (· = '\n') s.toList).map String.mk

/-- Python `str.split()` with no argument: split on whitespace,
discarding empty pieces. -/
def splitWhitespace (s : String) : List String :=
  ((splitByChar Char.isWhitespace s.toList).map String.mk).filter (· != "")

/-- Python `s.strip()` (for whitespace). -/
def pyStrip (s : String) : String :=
  String.mk (((s.toList.dropWhile Char.isWhitespace).reverse.dropWhile
    Char.isWhitespace).reverse)

/-- Python `s.lower()` (ASCII case folding suffices here). -/
def pyLower (s : String) : String :=
  String.mk (s.toList.map Char.toLower)

/-- Python `s.startswith(pre)`. -/
def pyStartsWith (s pre : String) : Bool :=
  pre.toList.isPrefixOf s.toList

/-- Python `s.replace(old, new)` for single-character arguments. -/
def pyReplaceChar (s : String) (old new : Char) : String :=
  String.mk (s.toList.map (fun c => if c = old then new else c))

/-- Substring search over character lists: does `needle` occur as a
contiguous infix? (`needle in haystack` for Python strings.) -/
def infixSearch (needle : List Char) : List Char → Bool
  | [] => needle.isEmpty
  | c :: rest => needle.isPrefixOf (c :: rest) || infixSearch needle rest

/-- Python `needle in haystack` for strings. -/
def pyIn (needle haystack : String) : Bool :=
  infixSearch needle.toList haystack.toList

/-- Python slice `s[:n]` (by code points). -/
def pyTake (s : String) (n : Nat) : String :=
  String.mk (s.toList.take n)

/-- Python `s.lstrip(chars)`: drop the longest leading run of characters
belonging to `chars`. -/
def pyLstrip (s : String) (chars : List Char) : String :=
  String.mk (s.toList.dropWhile (fun c => chars.contains c))

/-! ### Data model (`Source`, `Finding`, `ResearchReport`, `ResearchState`) -/

/-- Python `class ResearchState(Enum)`. -/
inductive ResearchState where
  | idle
  | searching
  | extracting
  | analyzing
  | synthesizing
  | complete
  | error
deriving DecidableEq, Repr

/-- The `.value` string of each `ResearchState` member. -/
def ResearchState.value : ResearchState → String
  | .idle => "idle"
  | .searching => "searching"
  | .extracting => "extracting"
  | .analyzing => "analyzing"
  | .synthesizing => "synthesizing"
  | .complete => "complete"
  | .error => "error"

/-- Python `@dataclass Source`. -/
structure Source where
  url : String
  title : String
  content : String := ""
  relevance : ℚ := 0
  extracted_at : String := ""
deriving DecidableEq, Repr

/-- Python `@dataclass Finding`. -/
structure Finding where
  topic : String
  content : String
  source : String
  confidence : ℚ := 1
  key_points : List String := []
deriving DecidableEq, Repr

/-- Python `@dataclass ResearchReport`. -/
structure ResearchReport where
  topic : String
  summary : String
  findings : List Finding := []
  sources : List Source := []
  key_insights : List String := []
  created_at : String := ""
deriving DecidableEq, Repr

/-- One entry of `self.action_history` (parameter values stringified). -/
structure ActionLogEntry where
  action : String
  params : List (String × String)
  timestamp : String
  state : String
deriving DecidableEq, Repr

/-- The mutable state of an `AgenticResearcher` instance.  The optional
collaborators are modelled as fallible functions: `scraper` would map a
query to sources, `llm` maps a prompt to a generated string. -/
structure Agent where
  scraper : Option (String → Except String (List Source)) := none
  llm : Option (String → Except String String) := none
  state : ResearchState := .idle
  findings : List Finding := []
  sources : List Source := []
  action_history : List ActionLogEntry := []

/-- A freshly constructed `AgenticResearcher()` with no collaborators. -/
def freshAgent : Agent := {}

/-- Method `log_action`: append an entry recording the action, parameters, the
timestamp, and the `.value` of the current state. -/
def log_action (a : Agent) (action : String) (params : List (String × String))
    (now : String) : Agent :=
  { a with action_history :=
      a.action_history ++ [⟨action, params, now, a.state.value⟩] }

/-! ### `_generate_search_queries` -/

/-- Method `_generate_search_queries`: five fixed-template variants of the
lower-cased topic. -/
def generate_search_queries (topic : String) : List String :=
  let base_topic := pyLower topic
  [ base_topic,
    "what is " ++ base_topic,
    base_topic ++ " guide",
    "best practices " ++ base_topic,
    base_topic ++ " tutorial" ]

/-! ### `_find_sources` -/

/-- The two mock sources generated for one query (demo mode). -/
def mockSources (query now : String) : List Source :=
  [ { url := "https://example.com/" ++ (pyReplaceChar query ' ' '-') ++ "/1",
      title := "Article about " ++ query ++ " - Source 1",
      relevance := 9/10,
      extracted_at := now },
    { url := "https://example.com/" ++ (pyReplaceChar query ' ' '-') ++ "/2",
      title := "Guide to " ++ query,
      relevance := 8/10,
      extracted_at := now } ]

/-- The query loop of `_find_sources`: for each query, break if enough
sources are accumulated, otherwise log and extend with the mock pair.
(The `if self.scraper:` branch in the source is a bare `pass`, so the
configured scraper is never consulted.) -/
def gatherSources (n : Nat) (now : String) : Agent → List String → List Source → Agent × List Source
  | a, [], acc => (a, acc)
  | a, query :: rest, acc =>
    if n ≤ acc.length then (a, acc)
    else
      let a1 := log_action a "searching" [("query", query)] now
      gatherSources n now a1 rest (acc ++ mockSources query now)

/-- Method `_find_sources`: gather mock sources over the generated queries, then
truncate to `num_sources`. -/
def find_sources (a : Agent) (topic : String) (num_sources : Nat) (now : String) :
    Agent × List Source :=
  let queries := generate_search_queries topic
  let res := gatherSources num_sources now a queries []
  (res.1, res.2.take num_sources)

/-! ### `_extract_content` and `_extract_key_points` -/

/-- The triple-quoted mock content before `.strip()` (each line of the
Python literal carries an 8-space indent; the "blank" lines hold 8 spaces). -/
def mockContentRaw (topic : String) : String :=
  "\n        Research findings about " ++ topic ++ ":\n        \n        Key Information:\n        - Overview: This is a comprehensive source about " ++ topic ++ "\n        - The topic covers several important aspects\n        - There are multiple perspectives on this subject\n        \n        Main Points:\n        1. First key point about " ++ topic ++ "\n        2. Second important aspect to consider\n        3. Third notable finding from research\n        \n        Conclusion:\n        Based on the analysis, " ++ topic ++ " is significant because it impacts\n        various areas including technology, business, and society.\n        "

/-- Method `_extract_content`: demo-mode mock content (the `url` is unused by the
source too). -/
def extract_content (_url topic : String) : String :=
  pyStrip (mockContentRaw topic)

/-- The marker prefixes recognised by `_extract_key_points`. -/
def markers : List String := ["- ", "• ", "* ", "1.", "2.", "3."]

/-- The character set handed to `lstrip` in the source: dash, bullet,
star, the digits 1 to 3, dot and space. -/
def markerChars : List Char := ['-', '•', '*', '1', '2', '3', '.', ' ']

/-- Python `line.startswith` applied to the tuple of the six markers. -/
def startsWithAnyMarker (line : String) : Bool :=
  markers.any (fun m => pyStartsWith line m)

/-- Method `_extract_key_points`: scan the lines, keep trimmed lines that start
with a marker, left-strip the marker characters, return at most 5. -/
def extract_key_points (content : String) : List String :=
  let lines := splitLines content
  let points := lines.foldl
    (fun pts line =>
      let line2 := pyStrip line
      if startsWithAnyMarker line2 then pts ++ [pyLstrip line2 markerChars]
      else pts)
    []
  points.take 5

/-! ### `_extract_from_sources` -/

/-- The per-source extraction loop: log, extract content into the source,
build a `Finding` (first 500 characters, key points), append it to the
findings of the agent.  Returns the agent and the content-filled sources. -/
def extractLoop (topic now : String) : Agent → List Source → Agent × List Source
  | a, [] => (a, [])
  | a, s :: rest =>
    let a1 := log_action a "extracting" [("url", s.url)] now
    let content := extract_content s.url topic
    let s2 := { s with content := content }
    let finding : Finding :=
      { topic := topic,
        content := pyTake content 500,
        source := s.url,
        key_points := extract_key_points content }
    let a2 := { a1 with findings := a1.findings ++ [finding] }
    let res := extractLoop topic now a2 rest
    (res.1, s2 :: res.2)

/-- Method `_extract_from_sources`: run the loop; since the Python loop mutates
the `Source` objects held by `self.sources`, the source list of the agent ends
up content-filled. -/
def extract_from_sources (a : Agent) (topic : String) (sources : List Source)
    (now : String) : Agent :=
  let res := extractLoop topic now a sources
  { res.1 with sources := res.2 }

/-! ### `_analyze_findings` -/

/-- The scoring loop of `_analyze_findings`.  For each finding: count the
lower-cased, whitespace-split topic words occurring as substrings of the
lower-cased content, then set
`confidence = min(matches / len(topic_words), 1.0)`.
When `topic_words` is empty the division raises `ZeroDivisionError`
("division by zero"), modelled as an `Except.error`. -/
def scoreFindings (topic : String) : List Finding → Except String (List Finding)
  | [] => .ok []
  | f :: rest =>
    let topic_words := splitWhitespace (pyLower topic)
    let content_lower := pyLower f.content
    let numMatches := (topic_words.filter (fun word => pyIn word content_lower)).length
    if topic_words.length = 0 then .error "division by zero"
    else
      match scoreFindings topic rest with
      | .error e => .error e
      | .ok rest2 =>
        .ok ({ f with
                confidence := min ((numMatches : ℚ) / (topic_words.length : ℚ)) 1 } :: rest2)

/-- The ordering used by `self.findings.sort(key=..., reverse=True)`:
descending by confidence (ties relate both ways, so a stable sort keeps
their input order). -/
def confDescR (f g : Finding) : Prop :=
  g.confidence ≤ f.confidence

instance : DecidableRel confDescR :=
  fun f g => inferInstanceAs (Decidable (g.confidence ≤ f.confidence))

instance : IsTotal Finding confDescR :=
  ⟨fun f g => le_total g.confidence f.confidence⟩

instance : IsTrans Finding confDescR :=
  ⟨fun _ _ _ h1 h2 => le_trans h2 h1⟩

/-- The sorting step of `_analyze_findings`.  Python `list.sort` is a
stable sort and `reverse=True` reverses the comparison while keeping
stability; the output of any stable sort for a total preorder is unique,
so a stable insertion sort models it exactly. -/
def sortByConfidenceDesc (fs : List Finding) : List Finding :=
  List.insertionSort confDescR fs

/-- Method `_analyze_findings`: score every accumulated finding, then sort by
confidence descending.  (The `if self.llm:` branch is a bare `pass`.) -/
def analyze_findings (a : Agent) (topic : String) : Except String Agent :=
  match scoreFindings topic a.findings with
  | .error e => .error e
  | .ok fs => .ok { a with findings := sortByConfidenceDesc fs }

/-! ### `_generate_summary`, `_generate_insights`, `_synthesize_report` -/

/-- Method `_generate_summary`: the deterministic template (triple-quoted
f-string, then `.strip()`); lines inside carry an 8-space indent. -/
def generate_summary (topic : String) (num_findings num_sources : Nat) : String :=
  pyStrip ("\n        Research on \u0027" ++ topic ++ "\u0027 completed successfully.\n        \n        This report contains " ++ toString num_findings ++ " key findings from " ++ toString num_sources ++ " sources.\n        The research covers various aspects of " ++ topic ++ " including main concepts,\n        important considerations, and practical applications.\n        \n        See key insights below for the most important takeaways.\n        ")

/-- The deduplication loop of `_generate_insights`: append a point only
when it is not in `seen` and fewer than 5 insights are collected; `seen`
records exactly the appended points. -/
def insightsLoop : List String → List String → List String → List String
  | [], insights, _ => insights
  | point :: rest, insights, seen =>
    if point ∉ seen ∧ insights.length < 5 then
      insightsLoop rest (insights ++ [point]) (seen ++ [point])
    else
      insightsLoop rest insights seen

/-- Method `_generate_insights`: flatten the key points of every finding in order,
then run the capped deduplication loop. -/
def generate_insights (findings : List Finding) : List String :=
  let all_points := findings.foldl (fun acc f => acc ++ f.key_points) []
  insightsLoop all_points [] []

/-- Method `_synthesize_report`: produce the summary (from the llm collaborator
when configured, which may fail; else the deterministic template), the
insight list, and the final report carrying the accumulated findings and
sources. -/
def synthesize_report (a : Agent) (topic now : String) :
    Except String (Agent × ResearchReport) :=
  let summaryE : Except String String :=
    match a.llm with
    | some generate =>
        generate ("Summarize research on " ++ topic ++ " based on these findings:\n"
          ++ String.intercalate "\n" ((a.findings.take 5).map Finding.content))
    | none => .ok (generate_summary topic a.findings.length a.sources.length)
  match summaryE with
  | .error e => .error e
  | .ok summary =>
    .ok (a,
      { topic := topic,
        summary := summary,
        findings := a.findings,
        sources := a.sources,
        key_insights := generate_insights a.findings,
        created_at := now })

/-! ### `research` (the orchestrator) -/

/-- Python depth lookup: `.get(depth, 5)` over the map shallow 3,
medium 5, deep 10. -/
def depthNum (depth : String) : Nat :=
  if depth = "shallow" then 3
  else if depth = "medium" then 5
  else if depth = "deep" then 10
  else 5

/-- The body of the `try:` block of `research`: search, extract, analyze,
synthesize, with the state transitions and the completion log.  An error
carries the exception message together with the agent state at the point
the exception was raised (in Python the partially performed mutations of
`self` persist). -/
def researchTry (a : Agent) (topic : String) (num_sources : Nat) (now : String) :
    Except (String × Agent) (Agent × ResearchReport) :=
  let fs := find_sources a topic num_sources now
  let a2 := { fs.1 with sources := fs.2 }
  let a3 := { a2 with state := ResearchState.extracting }
  let a4 := extract_from_sources a3 topic fs.2 now
  let a5 := { a4 with state := ResearchState.analyzing }
  match analyze_findings a5 topic with
  | .error e => .error (e, a5)
  | .ok a6 =>
    let a7 := { a6 with state := ResearchState.synthesizing }
    match synthesize_report a7 topic now with
    | .error e => .error (e, a7)
    | .ok (a8, report) =>
      let a9 := { a8 with state := ResearchState.complete }
      let a10 := log_action a9 "research_complete"
        [("findings", toString a9.findings.length)] now
      .ok (a10, report)

/-- The pipeline run by `research` after the initial state transition and
start log. -/
def pipelineOutcome (a : Agent) (topic depth now : String) :
    Except (String × Agent) (Agent × ResearchReport) :=
  let a1 := { a with state := ResearchState.searching }
  let a2 := log_action a1 "research_started" [("topic", topic), ("depth", depth)] now
  researchTry a2 topic (depthNum depth) now

/-- The message of the exception that escapes the pipeline, if any. -/
def pipelineErrMsg (a : Agent) (topic depth now : String) : Option String :=
  match pipelineOutcome a topic depth now with
  | .error (e, _) => some e
  | .ok _ => none

/-- Method `research`: run the pipeline; on success return the report, on any
exception set the state to `ERROR` and return a fresh minimal report
whose summary is `"Error: <message>"`. -/
def research (a : Agent) (topic : String) (depth : String) (now : String) :
    Agent × ResearchReport :=
  match pipelineOutcome a topic depth now with
  | .ok (a2, report) => (a2, report)
  | .error (e, a2) =>
    ({ a2 with state := ResearchState.error },
     { topic := topic, summary := "Error: " ++ e })

/-- Method `get_status`: read-only snapshot. -/
def get_status (a : Agent) : String × Nat × Nat × Nat :=
  (a.state.value, a.findings.length, a.sources.length, a.action_history.length)

/-! ### Spec-side definitions (for refinement claims) -/

/-- The key-point transform exactly as the specification words it: split
into lines, keep lines whose trimmed text starts with a marker, strip the
leading marker characters, keep at most 5, in original line order. -/
def specKeyPoints (content : String) : List String :=
  ((((splitLines content).map pyStrip).filter startsWithAnyMarker).map
    (fun line => pyLstrip line markerChars)).take 5

/-- The confidence formula exactly as the specification words it:
`min(1.0, matches / word_count(topic))`, where `matches` counts the
occurrences of lower-cased whitespace-split topic words (duplicates
checked once per occurrence) found as substrings of the lower-cased
content. -/
def specConfidence (topic content : String) : ℚ :=
  let words := splitWhitespace (pyLower topic)
  let matched := (words.filter (fun w => pyIn w (pyLower content))).length
  min 1 ((matched : ℚ) / (words.length : ℚ))

/-- One step of the walk the specification describes for `key_insights`:
append the point only if it is not already present and fewer than 5
insights are collected. -/
def insightStep (acc : List String) (p : String) : List String :=
  if p ∈ acc ∨ 5 ≤ acc.length then acc else acc ++ [p]

/-- The walk the specification describes for `key_insights`: traverse the
flattened key points, appending a point only if not already present, and
stop once 5 insights are collected. -/
def specInsights (points : List String) : List String :=
  points.foldl insightStep []

/-- The per-finding confidence update performed by the scoring loop
(derived form of the loop body, used to state its refinement). -/
def scoreOne (topic : String) (f : Finding) : Finding :=
  { f with
    confidence :=
      min ((((splitWhitespace (pyLower topic)).filter
          (fun w => pyIn w (pyLower f.content))).length : ℚ) /
        ((splitWhitespace (pyLower topic)).length : ℚ)) 1 }

/-! ### Helper lemmas -/

theorem extract_key_points_loop_eq (lines : List String) (acc : List String) :
    lines.foldl
      (fun pts line =>
        let line2 := pyStrip line
        if startsWithAnyMarker line2 then pts ++ [pyLstrip line2 markerChars]
        else pts)
      acc
    = acc ++ (((lines.map pyStrip).filter startsWithAnyMarker).map
        (fun line => pyLstrip line markerChars)) := by
  induction lines generalizing acc with
  | nil => simp
  | cons l rest ih =>
    simp only [List.foldl_cons, List.map_cons, List.filter_cons]
    by_cases h : startsWithAnyMarker (pyStrip l)
    · simp only [h, if_true, ih, List.map_cons, List.append_assoc,
        List.singleton_append]
    · simp only [h, if_false, ih, Bool.false_eq_true]

theorem extract_key_points_eq_spec (content : String) :
    extract_key_points content = specKeyPoints content := by
  simp only [extract_key_points, specKeyPoints]
  rw [extract_key_points_loop_eq]
  simp

/-! ### Claims -/

/-- C9: for every topic (including the empty one), the query generator
returns exactly 5 variants in the fixed order
`[topic, "what is {topic}", "{topic} guide", "best practices {topic}",
"{topic} tutorial"]` with the topic lower-cased, as a pure total
function. -/
theorem c9_query_generator (topic : String) :
    generate_search_queries topic =
      [ pyLower topic,
        "what is " ++ pyLower topic,
        pyLower topic ++ " guide",
        "best practices " ++ pyLower topic,
        pyLower topic ++ " tutorial" ] ∧
    (generate_search_queries topic).length = 5 := by
  constructor <;> rfl

/-- C6: key-point extraction is the deterministic transform the spec
describes (split into lines, keep trimmed lines starting with one of the
markers, strip the leading marker characters, at most 5 points in
original order), and on content with exactly the marked lines `"- a"`,
`"* b"`, `"1. c"` and two unmarked lines it returns `["a", "b", "c"]`. -/
theorem c6_key_point_extraction :
    extract_key_points "x\n- a\ny\n* b\n1. c" = ["a", "b", "c"] ∧
    ∀ content : String,
      extract_key_points content = specKeyPoints content ∧
      (extract_key_points content).length ≤ 5 := by
  refine ⟨by decide!, fun content => ⟨extract_key_points_eq_spec content, ?_⟩⟩
  rw [extract_key_points_eq_spec content]
  exact List.length_take_le 5 _

/-- C7: for every non-empty topic and every requested `n`, `_find_sources`
returns at most `n` sources, and when fewer than `n` sources were
accumulated by the query loop it returns exactly the accumulated list
without padding. -/
theorem c7_find_sources_bounded (a : Agent) (topic : String) (n : Nat)
    (now : String) (_h : topic ≠ "") :
    (find_sources a topic n now).2.length ≤ n ∧
    ((gatherSources n now a (generate_search_queries topic) []).2.length < n →
      (find_sources a topic n now).2 =
        (gatherSources n now a (generate_search_queries topic) []).2) := by
  refine ⟨?_, fun hlt => ?_⟩
  · simp only [find_sources]
    exact List.length_take_le n _
  · simp only [find_sources]
    exact List.take_of_length_le (le_of_lt hlt)

/-- Witness for C7 at `topic = "ai"`, `n = 3`. -/
theorem c7_find_sources_bounded_witness :
    ("ai" : String) ≠ "" ∧
    ((find_sources freshAgent "ai" 3 "t").2.length ≤ 3 ∧
     ((gatherSources 3 "t" freshAgent (generate_search_queries "ai") []).2.length < 3 →
        (find_sources freshAgent "ai" 3 "t").2 =
          (gatherSources 3 "t" freshAgent (generate_search_queries "ai") []).2)) :=
  ⟨by decide, c7_find_sources_bounded freshAgent "ai" 3 "t" (by decide)⟩

/-! ### C8: insight generation -/

theorem insightsLoop_eq_foldl (ps : List String) : ∀ ins : List String,
    insightsLoop ps ins ins = ps.foldl insightStep ins := by
  induction ps with
  | nil => intro ins; rfl
  | cons p rest ih =>
    intro ins
    simp only [insightsLoop, List.foldl_cons, insightStep]
    by_cases hmem : p ∈ ins
    · rw [if_neg (by tauto), if_pos (Or.inl hmem)]
      exact ih ins
    · by_cases hlen : ins.length < 5
      · rw [if_pos ⟨hmem, hlen⟩, if_neg (by push_neg; exact ⟨hmem, by omega⟩)]
        exact ih (ins ++ [p])
      · rw [if_neg (by tauto), if_pos (Or.inr (Nat.le_of_not_lt hlen))]
        exact ih ins

theorem generate_insights_eq_spec (findings : List Finding) :
    generate_insights findings =
      specInsights (findings.foldl (fun acc f => acc ++ f.key_points) []) := by
  simp only [generate_insights, specInsights]
  exact insightsLoop_eq_foldl _ []

theorem foldl_insightStep_invariant (ps : List String) : ∀ acc : List String,
    acc.Nodup → acc.length ≤ 5 →
    (ps.foldl insightStep acc).Nodup ∧ (ps.foldl insightStep acc).length ≤ 5 := by
  induction ps with
  | nil => intro acc h1 h2; exact ⟨h1, h2⟩
  | cons p rest ih =>
    intro acc h1 h2
    simp only [List.foldl_cons, insightStep]
    by_cases hc : p ∈ acc ∨ 5 ≤ acc.length
    · rw [if_pos hc]; exact ih acc h1 h2
    · rw [if_neg hc]
      push_neg at hc
      refine ih (acc ++ [p]) ?_ ?_
      · simp [List.nodup_append, h1, hc.1]
      · simp only [List.length_append, List.length_singleton]
        omega

theorem foldl_append_key_points (findings : List Finding) :
    ∀ acc : List String,
    findings.foldl (fun acc f => acc ++ f.key_points) acc =
      acc ++ (findings.map Finding.key_points).flatten := by
  induction findings with
  | nil => intro acc; simp
  | cons f rest ih =>
    intro acc
    simp only [List.foldl_cons, List.map_cons, List.flatten_cons, ih,
      List.append_assoc]

/-- C8: `_generate_insights` walks the findings in their current order,
flattens their key points, deduplicates order-preservingly (a point
already present is skipped), and stops at 5 insights; hence the result
has no duplicates — a point shared by two findings appears at most
once — and at most 5 entries. -/
theorem c8_insights_dedup (findings : List Finding) :
    generate_insights findings =
      specInsights ((findings.map Finding.key_points).flatten) ∧
    (generate_insights findings).Nodup ∧
    (generate_insights findings).length ≤ 5 ∧
    ∀ p : String, (generate_insights findings).count p ≤ 1 := by
  have hflat : findings.foldl (fun acc f => acc ++ f.key_points) [] =
      (findings.map Finding.key_points).flatten := by
    simpa using foldl_append_key_points findings []
  have heq : generate_insights findings =
      specInsights ((findings.map Finding.key_points).flatten) := by
    rw [generate_insights_eq_spec, hflat]
  have hinv := foldl_insightStep_invariant
    ((findings.map Finding.key_points).flatten) [] List.nodup_nil (by simp)
  rw [heq]
  refine ⟨rfl, hinv.1, hinv.2, fun p => ?_⟩
  exact List.nodup_iff_count_le_one.mp hinv.1 p

/-! ### C4: the confidence formula -/

theorem scoreFindings_eq_map (topic : String)
    (h : splitWhitespace (pyLower topic) ≠ []) (fs : List Finding) :
    scoreFindings topic fs = .ok (fs.map (scoreOne topic)) := by
  induction fs with
  | nil => rfl
  | cons f rest ih =>
    simp only [scoreFindings, List.map_cons]
    rw [if_neg (by simpa [List.length_eq_zero] using h), ih]
    rfl

/-- C4: the scoring loop of the analyzer sets the confidence of every finding to
`min(1.0, matches / word_count(topic))` exactly as the spec words it
(duplicated topic words are checked once per occurrence), and the result
always lies in `[0, 1]`; the loop raises no error when the topic has at
least one word. -/
theorem c4_confidence_formula (topic : String) (fs : List Finding)
    (h : splitWhitespace (pyLower topic) ≠ []) :
    scoreFindings topic fs = .ok (fs.map (scoreOne topic)) ∧
    ∀ f : Finding,
      (scoreOne topic f).confidence = specConfidence topic f.content ∧
      0 ≤ (scoreOne topic f).confidence ∧
      (scoreOne topic f).confidence ≤ 1 := by
  refine ⟨scoreFindings_eq_map topic h fs, fun f => ⟨?_, ?_, ?_⟩⟩
  · simp only [scoreOne, specConfidence]
    exact min_comm _ _
  · simp only [scoreOne]
    refine le_min (div_nonneg ?_ ?_) zero_le_one <;> positivity
  · simp only [scoreOne]
    exact min_le_right _ _

/-- Witness for C4 at topic `"machine learning"` and a finding whose
content contains both topic words (its scored confidence is then 1, the
wording in the spec, close to 1.0, for a two-word topic with both words matched). -/
theorem c4_confidence_formula_witness :
    splitWhitespace (pyLower "machine learning") ≠ [] ∧
    ((scoreOne "machine learning"
        { topic := "t", content := "All about machine learning methods",
          source := "u" }).confidence =
      specConfidence "machine learning" "All about machine learning methods" ∧
     0 ≤ (scoreOne "machine learning"
        { topic := "t", content := "All about machine learning methods",
          source := "u" }).confidence ∧
     (scoreOne "machine learning"
        { topic := "t", content := "All about machine learning methods",
          source := "u" }).confidence ≤ 1) :=
  ⟨by decide,
   (c4_confidence_formula "machine learning" [] (by decide)).2
     { topic := "t", content := "All about machine learning methods",
       source := "u" }⟩

/-! ### C5: the confidence sort is descending and stable -/

/-- C5: the sort step of `_analyze_findings` orders the findings by
confidence descending (`Pairwise confDescR`), and it is stable: for
every confidence value, the sublist of findings carrying that value is
unchanged — equal-confidence findings keep their relative order. -/
theorem c5_sort_descending_stable (fs : List Finding) :
    (sortByConfidenceDesc fs).Pairwise confDescR ∧
    ∀ q : ℚ,
      (sortByConfidenceDesc fs).filter (fun f => decide (f.confidence = q)) =
        fs.filter (fun f => decide (f.confidence = q)) := by
  constructor
  · exact List.sorted_insertionSort confDescR fs
  · intro q
    have hsub : List.Sublist (fs.filter (fun f => decide (f.confidence = q))) fs :=
      List.filter_sublist fs
    have hpw : (fs.filter (fun f => decide (f.confidence = q))).Pairwise confDescR := by
      apply List.pairwise_of_forall_mem_list
      intro f hf g hg
      have hfq : f.confidence = q := of_decide_eq_true (List.mem_filter.mp hf).2
      have hgq : g.confidence = q := of_decide_eq_true (List.mem_filter.mp hg).2
      show g.confidence ≤ f.confidence
      rw [hfq, hgq]
    have hstable :
        List.Sublist (fs.filter (fun f => decide (f.confidence = q)))
          (List.insertionSort confDescR fs) :=
      List.sublist_insertionSort hpw hsub
    have hself :
        (fs.filter (fun f => decide (f.confidence = q))).filter
            (fun f => decide (f.confidence = q)) =
          fs.filter (fun f => decide (f.confidence = q)) :=
      List.filter_eq_self.mpr (fun f hf => (List.mem_filter.mp hf).2)
    have h2 :
        List.Sublist (fs.filter (fun f => decide (f.confidence = q)))
          ((List.insertionSort confDescR fs).filter (fun f => decide (f.confidence = q))) := by
      have := hstable.filter (fun f => decide (f.confidence = q))
      rwa [hself] at this
    have hperm :
        List.Perm
          ((List.insertionSort confDescR fs).filter (fun f => decide (f.confidence = q)))
          (fs.filter (fun f => decide (f.confidence = q))) :=
      (List.perm_insertionSort confDescR fs).filter _
    exact (h2.eq_of_length hperm.length_eq.symm).symm

/-! ### C1: exceptions surface as an Error-state report -/

/-- C1: whenever an exception (message `e`) escapes the pipeline, the
`research` call does not propagate it: it returns a report whose topic is
the requested topic, whose summary is `"Error: <message>"`, and whose
findings, sources and key-insight lists are empty, with the agent left in
the `Error` state. -/
theorem c1_error_report (a : Agent) (topic depth now e : String)
    (h : pipelineErrMsg a topic depth now = some e) :
    (research a topic depth now).2.topic = topic ∧
    (research a topic depth now).2.summary = "Error: " ++ e ∧
    (research a topic depth now).2.findings = [] ∧
    (research a topic depth now).2.sources = [] ∧
    (research a topic depth now).2.key_insights = [] ∧
    (research a topic depth now).1.state = ResearchState.error := by
  unfold pipelineErrMsg at h
  unfold research
  cases hp : pipelineOutcome a topic depth now with
  | ok v => rw [hp] at h; simp at h
  | error p =>
    obtain ⟨e0, a0⟩ := p
    rw [hp] at h
    simp only [Option.some.injEq] at h
    subst h
    simp

/-- Witness for C1: the empty-topic run on a fresh agent raises
`ZeroDivisionError` inside the analysis stage. -/
theorem c1_error_report_witness :
    pipelineErrMsg freshAgent "" "medium" "t" = some "division by zero" ∧
    ((research freshAgent "" "medium" "t").2.topic = "" ∧
     (research freshAgent "" "medium" "t").2.summary = "Error: " ++ "division by zero" ∧
     (research freshAgent "" "medium" "t").2.findings = [] ∧
     (research freshAgent "" "medium" "t").2.sources = [] ∧
     (research freshAgent "" "medium" "t").2.key_insights = [] ∧
     (research freshAgent "" "medium" "t").1.state = ResearchState.error) :=
  ⟨by decide, c1_error_report freshAgent "" "medium" "t" "division by zero" (by decide)⟩

/-! ### C10: empty or whitespace-only topics -/

/-- C10: with an empty (or whitespace-only) topic and no collaborators,
`research` does not raise and no `InvalidTopicError` exists: the mock
pipeline still gathers 5 sources and 5 findings (they stay on the agent),
the division by the zero word count in the analyzer raises `ZeroDivisionError`,
and the call returns an Error-state report whose summary is
`"Error: division by zero"` (so it begins with `"Error:"`). -/
theorem c10_empty_topic (topic now : String)
    (h : splitWhitespace (pyLower topic) = []) :
    (research freshAgent topic "medium" now).1.state = ResearchState.error ∧
    (research freshAgent topic "medium" now).2.topic = topic ∧
    (research freshAgent topic "medium" now).2.summary = "Error: division by zero" ∧
    pyStartsWith (research freshAgent topic "medium" now).2.summary "Error:" = true ∧
    (research freshAgent topic "medium" now).1.sources.length = 5 ∧
    (research freshAgent topic "medium" now).1.findings.length = 5 := by
  refine ⟨?_, ?_, ?_, ?_, ?_, ?_⟩ <;>
    simp [research, pipelineOutcome, researchTry, depthNum, find_sources,
      generate_search_queries, gatherSources, mockSources, log_action,
      freshAgent, extract_from_sources, extractLoop, analyze_findings,
      scoreFindings, h, pyStartsWith]

/-- Witness for C10 at the empty topic. -/
theorem c10_empty_topic_witness :
    splitWhitespace (pyLower "") = [] ∧
    ((research freshAgent "" "medium" "t").1.state = ResearchState.error ∧
     (research freshAgent "" "medium" "t").2.topic = "" ∧
     (research freshAgent "" "medium" "t").2.summary = "Error: division by zero" ∧
     pyStartsWith (research freshAgent "" "medium" "t").2.summary "Error:" = true ∧
     (research freshAgent "" "medium" "t").1.sources.length = 5 ∧
     (research freshAgent "" "medium" "t").1.findings.length = 5) :=
  ⟨by decide, c10_empty_topic "" "t" (by decide)⟩

/-! ### Closed forms for the search and extraction loops -/

/-- The source list accumulated by the query loop (it depends only on
the queries, the cap and the timestamp — not on the agent). -/
def gatherList (n : Nat) (now : String) : List String → List Source → List Source
  | [], acc => acc
  | query :: rest, acc =>
    if n ≤ acc.length then acc
    else gatherList n now rest (acc ++ mockSources query now)

/-- The log entries appended by the query loop. -/
def gatherLog (n : Nat) (now st : String) : List String → List Source → List ActionLogEntry
  | [], _ => []
  | query :: rest, acc =>
    if n ≤ acc.length then []
    else ⟨"searching", [("query", query)], now, st⟩ ::
      gatherLog n now st rest (acc ++ mockSources query now)

/-- The content-filled source produced by the extraction loop. -/
def fillSource (topic : String) (s : Source) : Source :=
  { s with content := extract_content s.url topic }

/-- The finding produced by the extraction loop for one source. -/
def mkFinding (topic : String) (s : Source) : Finding :=
  { topic := topic,
    content := pyTake (extract_content s.url topic) 500,
    source := s.url,
    key_points := extract_key_points (extract_content s.url topic) }

/-- The log entries appended by the extraction loop. -/
def extractLog (now st : String) (srcs : List Source) : List ActionLogEntry :=
  srcs.map (fun s => ⟨"extracting", [("url", s.url)], now, st⟩)

theorem gatherSources_char (n : Nat) (now : String) :
    ∀ (qs : List String) (a : Agent) (acc : List Source),
    gatherSources n now a qs acc =
      ({ a with action_history :=
          a.action_history ++ gatherLog n now a.state.value qs acc },
       gatherList n now qs acc) := by
  intro qs
  induction qs with
  | nil => intro a acc; simp [gatherSources, gatherLog, gatherList]
  | cons query rest ih =>
    intro a acc
    simp only [gatherSources, gatherLog, gatherList]
    by_cases hc : n ≤ acc.length
    · simp [hc]
    · rw [if_neg hc, if_neg hc, if_neg hc, ih]
      simp [log_action]

theorem find_sources_char (a : Agent) (topic : String) (n : Nat) (now : String) :
    find_sources a topic n now =
      ({ a with action_history := a.action_history ++
          gatherLog n now a.state.value (generate_search_queries topic) [] },
       (gatherList n now (generate_search_queries topic) []).take n) := by
  simp only [find_sources, gatherSources_char]

theorem extractLoop_char (topic now : String) :
    ∀ (srcs : List Source) (a : Agent),
    extractLoop topic now a srcs =
      ({ a with
          findings := a.findings ++ srcs.map (mkFinding topic),
          action_history := a.action_history ++ extractLog now a.state.value srcs },
       srcs.map (fillSource topic)) := by
  intro srcs
  induction srcs with
  | nil => intro a; simp [extractLoop, extractLog]
  | cons src rest ih =>
    intro a
    simp only [extractLoop, List.map_cons]
    rw [ih]
    simp [log_action, extractLog, mkFinding, fillSource, List.append_assoc]

theorem extract_from_sources_char (a : Agent) (topic : String)
    (srcs : List Source) (now : String) :
    extract_from_sources a topic srcs now =
      { a with
          findings := a.findings ++ srcs.map (mkFinding topic),
          sources := srcs.map (fillSource topic),
          action_history := a.action_history ++ extractLog now a.state.value srcs } := by
  simp only [extract_from_sources, extractLoop_char]

theorem scoreFindings_ok_length (topic : String) :
    ∀ (fs gs : List Finding), scoreFindings topic fs = .ok gs → gs.length = fs.length := by
  intro fs
  induction fs with
  | nil =>
    intro gs h
    simp only [scoreFindings, Except.ok.injEq] at h
    simp [← h]
  | cons f rest ih =>
    intro gs h
    simp only [scoreFindings] at h
    by_cases hc : (splitWhitespace (pyLower topic)).length = 0
    · rw [if_pos hc] at h; exact absurd h (by simp)
    · rw [if_neg hc] at h
      cases hrest : scoreFindings topic rest with
      | error e => rw [hrest] at h; simp at h
      | ok rest2 =>
        rw [hrest] at h
        simp only [Except.ok.injEq] at h
        rw [← h]
        simp [ih rest2 hrest]

/-! ### Length laws for the pipeline (C3) -/

theorem synthesize_report_agent (a : Agent) (topic now : String)
    (a8 : Agent) (report : ResearchReport)
    (h : synthesize_report a topic now = .ok (a8, report)) : a8 = a := by
  unfold synthesize_report at h
  split at h
  · dsimp only at h
    split at h
    · exact absurd h (by simp)
    · simp only [Except.ok.injEq, Prod.mk.injEq] at h
      exact h.1.symm
  · dsimp only at h
    simp only [Except.ok.injEq, Prod.mk.injEq] at h
    exact h.1.symm

theorem pipelineOutcome_ok_law (b : Agent) (topic depth now : String)
    (p : Agent × ResearchReport) (h : pipelineOutcome b topic depth now = .ok p) :
    p.1.findings.length = b.findings.length + p.1.sources.length := by
  unfold pipelineOutcome researchTry at h
  dsimp only at h
  rw [find_sources_char] at h
  dsimp only at h
  rw [extract_from_sources_char] at h
  dsimp only at h
  simp only [analyze_findings] at h
  split at h
  · exact absurd h (by simp)
  · rename_i gs hs
    split at hs
    · exact absurd hs (by simp)
    · rename_i fs hfs
      simp only [Except.ok.injEq] at hs
      subst hs
      split at h
      · exact absurd h (by simp)
      · rename_i a8 report hsyn
        have ha8 := synthesize_report_agent _ topic now a8 report hsyn
        subst ha8
        simp only [Except.ok.injEq] at h
        rw [← h]
        have hgs := scoreFindings_ok_length topic _ fs hfs
        simp [log_action, sortByConfidenceDesc, hgs]

theorem pipelineOutcome_error_law (b : Agent) (topic depth now : String)
    (q : String × Agent) (h : pipelineOutcome b topic depth now = .error q) :
    q.2.findings.length = b.findings.length + q.2.sources.length := by
  unfold pipelineOutcome researchTry at h
  dsimp only at h
  rw [find_sources_char] at h
  dsimp only at h
  rw [extract_from_sources_char] at h
  dsimp only at h
  simp only [analyze_findings] at h
  split at h
  · rename_i e hs
    simp only [Except.error.injEq] at h
    rw [← h]
    simp [log_action]
  · rename_i gs hs
    split at hs
    · exact absurd hs (by simp)
    · rename_i fs hfs
      simp only [Except.ok.injEq] at hs
      subst hs
      split at h
      · rename_i e hsyn
        simp only [Except.error.injEq] at h
        rw [← h]
        have hgs := scoreFindings_ok_length topic _ fs hfs
        simp [log_action, sortByConfidenceDesc, hgs]
      · exact absurd h (by simp)

/-- C2 (amended): the configured search collaborator is never consulted —
the `if self.scraper:` branch is a bare `pass` — so `_find_sources`
returns the same mock-generated list regardless of the scraper field (the
mock path is never skipped), and injecting a scraper whose `search()`
always fails with `SearchError` still yields the ordinary mock report:
`Complete` state, 3 sources and 3 findings at shallow depth, with no
exception escaping `research()`. -/
theorem c2_scraper_ignored (a : Agent)
    (s2 : Option (String → Except String (List Source)))
    (topic : String) (n : Nat) (now : String) :
    ((find_sources { a with scraper := s2 } topic n now).2 =
        (find_sources a topic n now).2 ∧
     (find_sources { a with scraper := s2 } topic n now).2 =
        (gatherList n now (generate_search_queries topic) []).take n) ∧
    ((research { scraper := some fun _ => Except.error "SearchError" } "ai" "shallow" "t").1.state
        = ResearchState.complete ∧
     (research { scraper := some fun _ => Except.error "SearchError" } "ai" "shallow" "t").2.sources.length = 3 ∧
     (research { scraper := some fun _ => Except.error "SearchError" } "ai" "shallow" "t").2.findings.length = 3) := by
  refine ⟨⟨?_, ?_⟩, ?_⟩
  · simp only [find_sources_char]
  · simp only [find_sources_char]
  · decide!

/-- Counterexample to C2 as stated: with an always-failing scraper
configured, the report contains the 3 mock sources and 3 mock findings,
not zero — the sources from the collaborator are not used and the mock path is
not skipped. -/
theorem c2_scraper_counterexample :
    (research { scraper := some fun _ => Except.error "SearchError" } "ai" "shallow" "t").2.sources.length = 3 ∧
    ¬((research { scraper := some fun _ => Except.error "SearchError" } "ai" "shallow" "t").2.sources.length = 0) ∧
    ¬((research { scraper := some fun _ => Except.error "SearchError" } "ai" "shallow" "t").2.findings.length = 0) := by
  decide!

/-- C3 (amended): extraction appends exactly one finding per source while
`self.sources` is replaced by the source list of the current run, so after every
`research` call `len(findings)` equals the prior findings count plus
`len(sources)`; in particular `len(findings) == len(sources)` holds after
the first call on a fresh agent, but not across repeated calls. -/
theorem c3_one_finding_per_source (a : Agent) (topic depth now : String) :
    (research a topic depth now).1.findings.length =
      a.findings.length + (research a topic depth now).1.sources.length ∧
    (research freshAgent topic depth now).1.findings.length =
      (research freshAgent topic depth now).1.sources.length := by
  have main : ∀ b : Agent, (research b topic depth now).1.findings.length =
      b.findings.length + (research b topic depth now).1.sources.length := by
    intro b
    unfold research
    cases hp : pipelineOutcome b topic depth now with
    | ok p =>
      dsimp only
      exact pipelineOutcome_ok_law b topic depth now p hp
    | error q =>
      dsimp only
      exact pipelineOutcome_error_law b topic depth now q hp
  refine ⟨main a, ?_⟩
  have h2 := main freshAgent
  simpa [freshAgent] using h2

/-- Counterexample to C3 as stated: the second successful `research` call
on the same instance completes, yet it has 6 findings (accumulated across
runs) against 3 sources (replaced each run), breaking
`len(findings) == len(sources)`. -/
theorem c3_accumulation_counterexample :
    (research (research freshAgent "ai" "shallow" "t").1 "ai" "shallow" "t").1.state
        = ResearchState.complete ∧
    (research (research freshAgent "ai" "shallow" "t").1 "ai" "shallow" "t").1.findings.length = 6 ∧
    (research (research freshAgent "ai" "shallow" "t").1 "ai" "shallow" "t").1.sources.length = 3 ∧
    ¬((research (research freshAgent "ai" "shallow" "t").1 "ai" "shallow" "t").1.findings.length =
      (research (research freshAgent "ai" "shallow" "t").1 "ai" "shallow" "t").1.sources.length) := by
  decide!

end AgenticResearch
